import Mathlib

/-!
Verification of the ANP_GRU weekly fuel-price endpoint.

The repository contains four JavaScript request handlers
(mnt_fuel-prices.js, api_fuel-prices.js, api/api_fuel-prices.js which
holds two module variants, api/fuel-prices.js) sharing one extraction
pipeline: parsed spreadsheet rows are filtered to the GUARULHOS
municipality, reduced to the most recent reporting period, and mapped to
four fuel-price fields.  This file gives a shallow embedding of that
pipeline, of the excelDateToJS serial-date conversion, of the
findLatestExcelUrl page-scanning logic of api/fuel-prices.js, and of the
Cache-Control computation of the handlers, and proves or refutes the
frozen specification claims about them.

Modelling conventions:
  - JavaScript numbers are modelled by JNum: NaN, signed infinity, or a
    finite value carried as a rational.  The pipeline performs no
    arithmetic on prices (only comparisons and reassignment), so the
    rational model is exact on every value the code manipulates.
  - Spreadsheet cells (the values produced by sheet_to_json with
    defval null and cellDates true) are null, a number, a string, or a
    Date object carried as its millisecond timestamp.
  - String-to-number coercion implements the decimal and Infinity forms
    of the ECMAScript grammar; hexadecimal, octal and binary literal
    strings and double overflow to Infinity are not modelled, and no
    claim below depends on such inputs.
  - Date objects of the pipeline are compared through their timestamp
    (valueOf), exactly as the JavaScript relational operators do.
-/

/-! Kernel-reducible rational arithmetic.  The library addition,
subtraction, multiplication and inversion on Rat are marked irreducible,
which blocks evaluation of concrete witnesses by decide; the pipeline is
therefore embedded with the following equivalents built on Rat.divInt,
and lemmas below identify each with the standard operation. -/

/-- Reducible subtraction on rationals. -/
def qSub (a b : Rat) : Rat :=
  Rat.divInt (a.num * (b.den : Int) - b.num * (a.den : Int)) ((a.den : Int) * (b.den : Int))

/-- Reducible negation on rationals. -/
def qNeg (a : Rat) : Rat := Rat.divInt (-a.num) (a.den : Int)

/-- Reducible multiplication of a rational by a power of ten. -/
def qMulPow10 (a : Rat) (e : Nat) : Rat := Rat.divInt (a.num * 10 ^ e) (a.den : Int)

/-- Reducible division of a rational by a power of ten. -/
def qDivPow10 (a : Rat) (e : Nat) : Rat := Rat.divInt a.num ((a.den : Int) * 10 ^ e)

/-- Reducible floor of a rational. -/
def qFloor (a : Rat) : Int := a.num.fdiv (a.den : Int)

/-- A JavaScript number: NaN, a signed infinity, or a finite value. -/
inductive JNum where
  | nan : JNum
  | inf (pos : Bool) : JNum
  | fin (q : Rat) : JNum
deriving DecidableEq

/-- JavaScript strict less-than on numbers: any comparison with NaN is false. -/
def jltB : JNum → JNum → Bool
  | JNum.nan, _ => false
  | _, JNum.nan => false
  | JNum.inf true, _ => false
  | JNum.inf false, JNum.inf false => false
  | JNum.inf false, _ => true
  | JNum.fin _, JNum.inf p => p
  | JNum.fin a, JNum.fin b => decide (a < b)

/-- JavaScript strict greater-than on numbers. -/
def jgtB (a b : JNum) : Bool := jltB b a

/-- JavaScript strict equality on numbers: NaN is equal to nothing. -/
def jeqB : JNum → JNum → Bool
  | JNum.fin a, JNum.fin b => decide (a = b)
  | JNum.inf a, JNum.inf b => a == b
  | _, _ => false

/-- Whether a JavaScript number is finite (neither NaN nor infinite). -/
def JNum.isFin : JNum → Bool
  | JNum.fin _ => true
  | _ => false

/-- The finite value of a JavaScript number, when it has one. -/
def JNum.toRat? : JNum → Option Rat
  | JNum.fin q => some q
  | _ => none

/-- A spreadsheet cell as produced by sheet_to_json with defval null and
cellDates true: null, a number, a string, or a Date object carried as its
millisecond timestamp. -/
inductive Cell where
  | cnull : Cell
  | cnum (n : JNum) : Cell
  | cstr (s : String) : Cell
  | cdate (ms : Int) : Cell
deriving DecidableEq

/-- JavaScript truthiness of a cell value: null, NaN, zero and the empty
string are falsy; every other number, string and object is truthy. -/
def jsTruthy : Cell → Bool
  | Cell.cnull => false
  | Cell.cnum JNum.nan => false
  | Cell.cnum (JNum.fin q) => decide (q ≠ 0)
  | Cell.cnum (JNum.inf _) => true
  | Cell.cstr s => decide (s ≠ "")
  | Cell.cdate _ => true

/-- Decimal string of a rational.  JavaScript prints a decimal numeral for
a number; the exact digit sequence never matters below, the code only ever
asks whether the string equals GUARULHOS or contains a fuel keyword, and
this rendering, like the JavaScript one, contains no letter. -/
def ratToStr (q : Rat) : String :=
  if q.den = 1 then toString q.num else toString q.num ++ "/" ++ toString q.den

/-- The toString conversion applied by the code to municipality and
product cells.  The Date rendering is abbreviated (JavaScript prints a
weekday-and-month form); both contain characters outside every string the
code compares against, which is all the pipeline observes of it. -/
def jsToString : Cell → String
  | Cell.cnull => "null"
  | Cell.cnum JNum.nan => "NaN"
  | Cell.cnum (JNum.inf true) => "Infinity"
  | Cell.cnum (JNum.inf false) => "-Infinity"
  | Cell.cnum (JNum.fin q) => ratToStr q
  | Cell.cstr s => s
  | Cell.cdate ms => "[Date-" ++ toString ms ++ "]"

/-- ECMAScript whitespace accepted around numeric strings (the common
ASCII forms; exotic Unicode spaces are not modelled). -/
def jsWhite (c : Char) : Bool :=
  c == ' ' || c == '\t' || c == '\n' || c == '\r'

/-- Numeric value of a digit list, most significant first. -/
def natOfDigitList (ds : List Char) : Nat :=
  ds.foldl (fun a c => a * 10 + (c.toNat - 48)) 0

/-- Apply an optional exponent part (e or E, optional sign, digits) to a
mantissa; if no well-formed exponent follows, nothing is consumed. -/
def applyExpo (q : Rat) (l : List Char) : Rat × List Char :=
  match l with
  | 'e' :: r | 'E' :: r =>
    let sr : Bool × List Char :=
      match r with
      | '+' :: t => (false, t)
      | '-' :: t => (true, t)
      | t => (false, t)
    let ds := sr.2.takeWhile Char.isDigit
    let r3 := sr.2.dropWhile Char.isDigit
    if ds.isEmpty then (q, l)
    else
      let e := natOfDigitList ds
      ((if sr.1 then qDivPow10 q e else qMulPow10 q e), r3)
  | _ => (q, l)

/-- Longest unsigned decimal literal at the head of the list: digits with
an optional fraction and exponent, or a bare fraction. -/
def numCore (l : List Char) : Option (Rat × List Char) :=
  let ip := l.takeWhile Char.isDigit
  let r1 := l.dropWhile Char.isDigit
  if ip.isEmpty then
    match r1 with
    | '.' :: r2 =>
      let fp := r2.takeWhile Char.isDigit
      let r3 := r2.dropWhile Char.isDigit
      if fp.isEmpty then none
      else some (applyExpo (Rat.divInt (natOfDigitList fp : Int) (10 ^ fp.length)) r3)
    | _ => none
  else
    match r1 with
    | '.' :: r2 =>
      let fp := r2.takeWhile Char.isDigit
      let r3 := r2.dropWhile Char.isDigit
      some (applyExpo
        (Rat.divInt ((natOfDigitList ip : Int) * 10 ^ fp.length + (natOfDigitList fp : Int))
          (10 ^ fp.length)) r3)
    | _ => some (applyExpo (Rat.divInt (natOfDigitList ip : Int) 1) r1)

/-- Signed numeric literal at the head of the list: optional sign, then
Infinity or a decimal literal. -/
def signedNum (l : List Char) : Option (JNum × List Char) :=
  let sr : Bool × List Char :=
    match l with
    | '+' :: t => (false, t)
    | '-' :: t => (true, t)
    | t => (false, t)
  if ("Infinity".toList).isPrefixOf sr.2 then
    some (JNum.inf (!sr.1), sr.2.drop 8)
  else
    match numCore sr.2 with
    | some (q, rest) => some (JNum.fin (if sr.1 then qNeg q else q), rest)
    | none => none

/-- The parseFloat builtin on a string: skip leading whitespace, read the
longest signed decimal or Infinity prefix, NaN when there is none. -/
def parseFloatStr (s : String) : JNum :=
  match signedNum (s.toList.dropWhile jsWhite) with
  | some (v, _) => v
  | none => JNum.nan

/-- The ToNumber coercion on a string: after trimming whitespace the whole
remainder must be a numeric literal; the empty string is zero. -/
def strToNumber (s : String) : JNum :=
  let l := ((s.toList.dropWhile jsWhite).reverse.dropWhile jsWhite).reverse
  if l.isEmpty then JNum.fin 0
  else
    match signedNum l with
    | some (v, []) => v
    | _ => JNum.nan

/-- Days in a month of the proleptic Gregorian calendar. -/
def daysInMonth (y : Int) (m : Nat) : Nat :=
  if m = 2 then
    if y % 4 = 0 ∧ (y % 100 ≠ 0 ∨ y % 400 = 0) then 29 else 28
  else if m = 4 ∨ m = 6 ∨ m = 9 ∨ m = 11 then 30
  else 31

/-- Civil date of a day count relative to 1970-01-01 (proleptic
Gregorian, the days-from-civil inverse). -/
def civilFromDays (z0 : Int) : Int × Nat × Nat :=
  let z := z0 + 719468
  let era := z.fdiv 146097
  let doe := z - era * 146097
  let yoe := (doe - doe.fdiv 1460 + doe.fdiv 36524 - doe.fdiv 146096).fdiv 365
  let y := yoe + era * 400
  let doy := doe - (365 * yoe + yoe.fdiv 4 - yoe.fdiv 100)
  let mp := (5 * doy + 2).fdiv 153
  let d := doy - (153 * mp + 2).fdiv 5 + 1
  let m := mp + (if mp < 10 then 3 else -9)
  (y + (if m ≤ 2 then 1 else 0), m.toNat, d.toNat)

/-- Day count relative to 1970-01-01 of a civil date. -/
def daysFromCivil (y : Int) (m d : Nat) : Int :=
  let y2 := y - (if m ≤ 2 then 1 else 0)
  let era := y2.fdiv 400
  let yoe := y2 - era * 400
  let mp : Int := (m : Int) + (if 2 < m then -3 else 9)
  let doy := (153 * mp + 2).fdiv 5 + (d : Int) - 1
  let doe := yoe * 365 + yoe.fdiv 4 - yoe.fdiv 100 + doy
  era * 146097 + doe - 719468

/-- Zero-padded decimal numeral of the given width. -/
def padNum (w n : Nat) : String :=
  let s := toString n
  String.mk (List.replicate (w - s.length) '0') ++ s

/-- Year field of an ISO date string: four digits, or the ECMAScript
expanded six-digit signed form outside 0000..9999. -/
def isoYearStr (y : Int) : String :=
  if 0 ≤ y ∧ y ≤ 9999 then padNum 4 y.toNat
  else (if y < 0 then "-" else "+") ++ padNum 6 y.natAbs

/-- The date part of toISOString of a valid Date with the given
millisecond timestamp. -/
def isoDatePart (q : Rat) : String :=
  let days := (qFloor q).fdiv 86400000
  let c := civilFromDays days
  isoYearStr c.1 ++ "-" ++ padNum 2 c.2.1 ++ "-" ++ padNum 2 c.2.2

/-- Full toISOString of a valid Date with the given millisecond
timestamp. -/
def isoTimestamp (now : Int) : String :=
  let msday := now.fmod 86400000
  let h := msday.fdiv 3600000
  let mi := (msday.fmod 3600000).fdiv 60000
  let s := (msday.fmod 60000).fdiv 1000
  let ms := msday.fmod 1000
  isoDatePart (now : Rat) ++ "T" ++ padNum 2 h.toNat ++ ":" ++ padNum 2 mi.toNat ++
    ":" ++ padNum 2 s.toNat ++ "." ++ padNum 3 ms.toNat ++ "Z"

/-- New-Date parsing of a string as the code would trigger it through
excelDateToJS on a text cell.  The ISO date-only form, the only date
string a spreadsheet text cell realistically carries, is parsed to UTC
midnight; other strings yield an invalid date.  (Full ECMAScript date
parsing accepts more formats; no claim depends on them.) -/
def jsDateParse (s : String) : JNum :=
  match s.toList with
  | [y1, y2, y3, y4, '-', m1, m2, '-', d1, d2] =>
    if ([y1, y2, y3, y4, m1, m2, d1, d2].all Char.isDigit) then
      let y : Int := (natOfDigitList [y1, y2, y3, y4] : Int)
      let m := natOfDigitList [m1, m2]
      let d := natOfDigitList [d1, d2]
      if 1 ≤ m ∧ m ≤ 12 ∧ 1 ≤ d ∧ d ≤ daysInMonth y m then
        JNum.fin ((daysFromCivil y m d * 86400000 : Int) : Rat)
      else JNum.nan
    else JNum.nan
  | _ => JNum.nan

/-- TimeClip of the Date constructor: timestamps beyond 8.64e15
milliseconds in magnitude give an invalid date. -/
def dateClip (ms : Int) : JNum :=
  if ms.natAbs ≤ 8640000000000000 then JNum.fin (ms : Rat) else JNum.nan

/-- excelDateToJS from the source (all four variants are identical),
returned as the timestamp the rest of the pipeline observes of the
resulting Date: a Date instance passes through, a string is parsed
natively, any other value is epoch-shifted by 25569 days after flooring
and scaled to milliseconds.  A null cell reaches the numeric branch and
coerces to zero; NaN and infinite serials produce an invalid date. -/
def excelDateToJS : Cell → JNum
  | Cell.cdate ms => JNum.fin (ms : Rat)
  | Cell.cstr s => jsDateParse s
  | Cell.cnull => dateClip ((0 - 25569) * 86400000)
  | Cell.cnum JNum.nan => JNum.nan
  | Cell.cnum (JNum.inf _) => JNum.nan
  | Cell.cnum (JNum.fin q) => dateClip (qFloor (qSub q 25569) * 86400000)

/-- formatDate from the source: toISOString of the date, truncated at the
T separator.  toISOString throws a RangeError on an invalid date, which
the embedding reports as the none case. -/
def formatDate : JNum → Option String
  | JNum.fin q => some (isoDatePart q)
  | _ => none

/-- A parsed spreadsheet row, restricted to the six columns the pipeline
reads.  The municipality value appears under an accented or an unaccented
header depending on the file, and the code tries both. -/
structure Row where
  municipioAcc : Cell
  municipioPlain : Cell
  produto : Cell
  precoMedioRevenda : Cell
  dataInicial : Cell
  dataFinal : Cell
deriving DecidableEq

/-- Substring occurrence on character lists, the semantics of the
includes method used for product classification. -/
def listHasSub (pat : List Char) : List Char → Bool
  | [] => pat.isEmpty
  | l@(_ :: t) => pat.isPrefixOf l || listHasSub pat t

/-- Substring occurrence on strings. -/
def strHasSub (hay pat : String) : Bool := listHasSub pat.toList hay.toList

/-- Uppercasing as the code applies it.  The toUpperCase builtin maps
every character; the cells the pipeline compares are ASCII, where the
character-wise mapping agrees with it. -/
def upperStr (s : String) : String := String.mk (s.toList.map Char.toUpper)

/-- The uppercased product name the classification works on: the falsy
product cell falls back to the empty string before toString. -/
def produtoUpper (r : Row) : String :=
  upperStr (if jsTruthy r.produto then jsToString r.produto else "")

/-- The locality filter of the pipeline: the accented municipality column
with falsy fallback to the unaccented one, required truthy, its string
form uppercased and compared to GUARULHOS. -/
def rowMatchesGuarulhos (r : Row) : Bool :=
  let municipio := if jsTruthy r.municipioAcc then r.municipioAcc else r.municipioPlain
  jsTruthy municipio && upperStr (jsToString municipio) == "GUARULHOS"

/-- The ToNumber coercion applied by the isNaN builtin: null is zero, a
Date gives its timestamp, a string goes through the numeric grammar. -/
def jsToNumber : Cell → JNum
  | Cell.cnull => JNum.fin 0
  | Cell.cnum n => n
  | Cell.cstr s => strToNumber s
  | Cell.cdate ms => JNum.fin (ms : Rat)

/-- The parseFloat builtin on a cell value: a number survives the
round-trip through its decimal rendering unchanged, a string is read by
the prefix grammar, and any other value goes through its toString form
(whose leading character is never part of a numeral). -/
def jsParseFloat : Cell → JNum
  | Cell.cnum n => n
  | Cell.cstr s => parseFloatStr s
  | c => parseFloatStr (jsToString c)

/-- The price-cell computation of each classification branch:
preco !== null and not isNaN(preco), then parseFloat(preco), else null. -/
def parsePreco (c : Cell) : Option JNum :=
  if c = Cell.cnull then none
  else if jsToNumber c = JNum.nan then none
  else some (jsParseFloat c)

/-- The four-field price record of the output. -/
structure Prices where
  gasolinaComum : Option JNum
  etanol : Option JNum
  diesel : Option JNum
  gnv : Option JNum
deriving DecidableEq

/-- The initial record: every category null. -/
def initPrices : Prices := ⟨none, none, none, none⟩

/-- The four fuel categories of the output record. -/
inductive Category where
  | gasolinaComum : Category
  | etanol : Category
  | diesel : Category
  | gnv : Category
deriving DecidableEq

/-- Projection of a category field from the price record. -/
def getField : Category → Prices → Option JNum
  | Category.gasolinaComum, p => p.gasolinaComum
  | Category.etanol, p => p.etanol
  | Category.diesel, p => p.diesel
  | Category.gnv, p => p.gnv

/-- Update of a category field of the price record. -/
def setField : Category → Option JNum → Prices → Prices
  | Category.gasolinaComum, v, p => { p with gasolinaComum := v }
  | Category.etanol, v, p => { p with etanol := v }
  | Category.diesel, v, p => { p with diesel := v }
  | Category.gnv, v, p => { p with gnv := v }

/-- The raw substring condition of each classification branch. -/
def catCond (c : Category) (r : Row) : Bool :=
  match c with
  | Category.gasolinaComum => strHasSub (produtoUpper r) "GASOLINA COMUM"
  | Category.etanol => strHasSub (produtoUpper r) "ETANOL"
  | Category.diesel => strHasSub (produtoUpper r) "DIESEL" && !strHasSub (produtoUpper r) "S10"
  | Category.gnv => strHasSub (produtoUpper r) "GNV"

/-- The body of the price-extraction forEach: the first branch of the
if-else chain whose substring test succeeds assigns its field. -/
def applyRowPrices (p : Prices) (r : Row) : Prices :=
  if strHasSub (produtoUpper r) "GASOLINA COMUM" then
    { p with gasolinaComum := parsePreco r.precoMedioRevenda }
  else if strHasSub (produtoUpper r) "ETANOL" then
    { p with etanol := parsePreco r.precoMedioRevenda }
  else if strHasSub (produtoUpper r) "DIESEL" && !strHasSub (produtoUpper r) "S10" then
    { p with diesel := parsePreco r.precoMedioRevenda }
  else if strHasSub (produtoUpper r) "GNV" then
    { p with gnv := parsePreco r.precoMedioRevenda }
  else p

/-- The category a row is classified into: the first branch of the chain
that fires, if any. -/
def classifyCat (r : Row) : Option Category :=
  if strHasSub (produtoUpper r) "GASOLINA COMUM" then some Category.gasolinaComum
  else if strHasSub (produtoUpper r) "ETANOL" then some Category.etanol
  else if strHasSub (produtoUpper r) "DIESEL" && !strHasSub (produtoUpper r) "S10" then some Category.diesel
  else if strHasSub (produtoUpper r) "GNV" then some Category.gnv
  else none

/-- One step of the maxDate loop: the candidate date replaces the
accumulator when it compares strictly greater. -/
def stepMax (m d : JNum) : JNum := if jgtB d m then d else m

/-- The maxDate loop: starting from null, a row's end date replaces the
accumulator when the accumulator is still null or the date compares
strictly greater; with a first row present this is a fold from the first
end date, since the null accumulator is always replaced. -/
def maxFinal (r0 : Row) (rest : List Row) : JNum :=
  rest.foldl (fun m r => stepMax m (excelDateToJS r.dataFinal)) (excelDateToJS r0.dataFinal)

/-- The latestData filter: rows whose end-date timestamp is strictly
equal to the maximum. -/
def latestRows (g : List Row) (maxD : JNum) : List Row :=
  g.filter fun r => jeqB (excelDateToJS r.dataFinal) maxD

/-- One step of the minDate loop: a null accumulator takes the candidate,
otherwise the candidate replaces it when it compares strictly smaller. -/
def stepMin (acc : Option JNum) (d : JNum) : Option JNum :=
  match acc with
  | none => some d
  | some m => if jltB d m then some d else some m

/-- The minDate loop over the latest subset, kept as the code runs it:
the accumulator starts null and is replaced when null or when the start
date compares strictly smaller. -/
def minInicial (l : List Row) : Option JNum :=
  l.foldl (fun acc r => stepMin acc (excelDateToJS r.dataInicial)) none

/-- The price-extraction forEach over the latest subset. -/
def pricesOf (l : List Row) : Prices := l.foldl applyRowPrices initPrices

deriving instance DecidableEq for Except

/-- The pure result of the extraction, before the updatedAt timestamp is
attached. -/
structure CoreResult where
  data : Prices
  periodStart : String
  periodEnd : String
deriving DecidableEq

/-- The extraction pipeline on parsed rows, identical in all four source
variants: filter to GUARULHOS, fail on an empty filter, reduce to the
latest period, extract prices, format the period bounds.  A null minDate
(possible only when the latest filter is empty, which requires an invalid
maximum date) would make formatDate throw a TypeError in the source, and
an invalid date a RangeError; both surface as errors here. -/
def processRows (rows : List Row) : Except String CoreResult :=
  match rows.filter rowMatchesGuarulhos with
  | [] => Except.error "Nenhum dado encontrado para Guarulhos"
  | r0 :: rest =>
    let maxD := maxFinal r0 rest
    let latest := latestRows (r0 :: rest) maxD
    match minInicial latest with
    | none => Except.error "TypeError: Cannot read properties of null"
    | some mn =>
      match formatDate mn with
      | none => Except.error "RangeError: Invalid time value"
      | some ps =>
        match formatDate maxD with
        | none => Except.error "RangeError: Invalid time value"
        | some pe => Except.ok { data := pricesOf latest, periodStart := ps, periodEnd := pe }

/-- The success payload returned by fetchAndProcessExcel, with the
updatedAt wall-clock timestamp made an explicit input. -/
structure Payload where
  success : Bool
  data : Prices
  periodStart : String
  periodEnd : String
  updatedAt : String
deriving DecidableEq

/-- fetchAndProcessExcel after parsing: the extraction result shaped into
the JSON payload, updatedAt taken from the clock. -/
def fetchPipeline (now : Int) (rows : List Row) : Except String Payload :=
  (processRows rows).map fun c =>
    { success := true, data := c.data, periodStart := c.periodStart,
      periodEnd := c.periodEnd, updatedAt := isoTimestamp now }


/-- Case-insensitive character comparison, the i flag of the discovery
patterns (ASCII, which covers every pattern character). -/
def charEqCI (a b : Char) : Bool := a.toLower == b.toLower

/-- Match a pattern case-insensitively at the head of the list, returning
the remainder. -/
def dropPrefixCI : List Char → List Char → Option (List Char)
  | [], l => some l
  | _ :: _, [] => none
  | p :: ps, c :: cs => if charEqCI p c then dropPrefixCI ps cs else none

/-- Prefix test on strings through character lists (the startsWith calls
of URL resolution; reducible in the kernel). -/
def strStartsWith (s p : String) : Bool := p.toList.isPrefixOf s.toList

/-- A discovery match: the captured URL text and the two year groups. -/
structure Candidate where
  url : String
  startYear : Nat
  endYear : Nat
deriving DecidableEq

/-- Match the literal core of the discovery patterns at the head of the
list: semanal-municipio-, four digits, a dash, four digits, .xlsx, all
case-insensitive.  Returns the raw digit groups, their parseInt values
and the remainder. -/
def matchSem (l : List Char) : Option (List Char × List Char × Nat × Nat × List Char) :=
  match dropPrefixCI "semanal-municipio-".toList l with
  | none => none
  | some r1 =>
    let y1 := r1.take 4
    if y1.length = 4 ∧ y1.all Char.isDigit then
      match r1.drop 4 with
      | '-' :: r2 =>
        let y2 := r2.take 4
        if y2.length = 4 ∧ y2.all Char.isDigit then
          match dropPrefixCI ".xlsx".toList (r2.drop 4) with
          | some r3 => some (y1, y2, natOfDigitList y1, natOfDigitList y2, r3)
          | none => none
        else none
      | _ => none
    else none

/-- The literal core matched against an exact character list. -/
def matchSemExact (l : List Char) : Option (Nat × Nat) :=
  match matchSem l with
  | some (_, _, a, b, []) => some (a, b)
  | _ => none

/-- Split at the first double quote, when there is one. -/
def firstQuoteSplit : List Char → Option (List Char × List Char)
  | [] => none
  | '"' :: t => some ([], t)
  | c :: t =>
    match firstQuoteSplit t with
    | some (a, b) => some (c :: a, b)
    | none => none

/-- The href-anchored pattern tried at one position.  The greedy non-quote
group of the pattern must end at the first following double quote, and the
32-character literal core must sit immediately before that quote, so the
match at a position is unique when it exists. -/
def tryHrefAt (l : List Char) : Option (Candidate × List Char) :=
  match dropPrefixCI "href=\"".toList l with
  | none => none
  | some r0 =>
    match firstQuoteSplit r0 with
    | none => none
    | some (bef, rest) =>
      let n := bef.length
      if 32 ≤ n then
        match matchSemExact (bef.drop (n - 32)) with
        | some (y1, y2) =>
          some ({ url := String.mk bef, startYear := y1, endYear := y2 }, rest)
        | none => none
      else none

/-- Global scan of the href-anchored pattern: leftmost match first, each
search resuming after the end of the previous match, as exec with the g
flag does.  The fuel argument is the initial length of the text and
strictly bounds the number of steps. -/
def scanHrefAux : Nat → List Char → List Candidate
  | 0, _ => []
  | _ + 1, [] => []
  | fuel + 1, l =>
    match tryHrefAt l with
    | some (c, rest) => c :: scanHrefAux fuel rest
    | none => scanHrefAux fuel l.tail

/-- All matches of the href-anchored municipality pattern in a page. -/
def hrefCandidates (html : String) : List Candidate :=
  scanHrefAux html.toList.length html.toList

/-- The base directory used to rebuild URLs for the fallback pattern and
to absolutize scheme-less results. -/
def semanalBase : String :=
  "https://www.gov.br/anp/pt-br/assuntos/precos-e-defesa-da-concorrencia/precos/precos-revenda-e-de-distribuicao-combustiveis/shlp/semanal/"

/-- Global scan of the fallback pattern, which matches the literal core
anywhere in the text and rebuilds the URL from the base directory and the
raw year groups. -/
def scanAltAux : Nat → List Char → List Candidate
  | 0, _ => []
  | _ + 1, [] => []
  | fuel + 1, l =>
    match matchSem l with
    | some (y1s, y2s, y1, y2, rest) =>
      { url := semanalBase ++ "semanal-municipio-" ++ String.mk y1s ++ "-" ++ String.mk y2s ++ ".xlsx",
        startYear := y1, endYear := y2 } :: scanAltAux fuel rest
    | none => scanAltAux fuel l.tail

/-- All matches of the fallback municipality pattern in a page. -/
def altCandidates (html : String) : List Candidate :=
  scanAltAux html.toList.length html.toList

/-- The sort order of the comparator b.endYear - a.endYear with start-year
tiebreak: a sorts no later than b when its end year is larger, or equal
with a start year no smaller. -/
def candGe (a b : Candidate) : Prop :=
  b.endYear < a.endYear ∨ (b.endYear = a.endYear ∧ b.startYear ≤ a.startYear)

instance : DecidableRel candGe := fun a b => by unfold candGe; exact inferInstance

instance : IsTotal Candidate candGe := ⟨by intro a b; unfold candGe; omega⟩

instance : IsTrans Candidate candGe := ⟨by intro a b c; unfold candGe; omega⟩

/-- URL absolutization at the end of discovery: leading slash gets the
host, a scheme-less name gets the base directory, anything else is used
as is. -/
def resolveUrl (u : String) : String :=
  if strStartsWith u "/" then "https://www.gov.br" ++ u
  else if !strStartsWith u "http" then semanalBase ++ u
  else u

/-- findLatestExcelUrl of api/fuel-prices.js after the page fetch: scan
with the href pattern, fall back to the loose pattern when it found
nothing, fail when both found nothing, stable-sort by descending end year
then start year and take the first.  The engine sort is stable, which is
exactly insertion sort for this total preorder; the headD default is
never reached on a nonempty list. -/
def usedCandidates (html : String) : List Candidate :=
  if (hrefCandidates html).isEmpty then altCandidates html else hrefCandidates html

def findLatestExcelUrlPure (html : String) : Except String String :=
  if (usedCandidates html).isEmpty then
    Except.error "No municipality Excel files found on ANP page"
  else
    Except.ok (resolveUrl
      ((List.insertionSort candGe (usedCandidates html)).headD ⟨"", 0, 0⟩).url)

/-- getSecondsUntil7AM of api/api_fuel-prices.js (first module) and
api/fuel-prices.js.  Local civil time is modelled as a fixed offset from
the millisecond clock (no daylight-saving transition), with now the local
clock value: setHours(7,0,0,0) floors to the civil day and adds seven
hours, a day is added when that instant has passed, and the difference is
floored to seconds with a minimum of 60. -/
def getSecondsUntil7AM_v1 (now : Int) : Int :=
  let target0 := 86400000 * (now.fdiv 86400000) + 25200000
  let target := if target0 ≤ now then target0 + 86400000 else target0
  max 60 ((target - now).fdiv 1000)

/-- getSecondsUntil7AM of the second module of api/api_fuel-prices.js,
which additionally clamps to one day. -/
def getSecondsUntil7AM_v2 (now : Int) : Int :=
  let target0 := 86400000 * (now.fdiv 86400000) + 25200000
  let target := if target0 ≤ now then target0 + 86400000 else target0
  max 60 (min ((target - now).fdiv 1000) 86400)

/-- The no-store directive shared by every dynamic handler. -/
def noStoreHeader : String := "no-cache, no-store, must-revalidate"

/-- Cache-Control decision of the handlers of api/api_fuel-prices.js
(first module) and api/fuel-prices.js: ok tells whether
fetchAndProcessExcel succeeded, force is the refresh=true query flag. -/
def cacheControlA (force ok : Bool) (now : Int) : Option String :=
  if ok then
    if !force then
      some ("s-maxage=" ++ toString (getSecondsUntil7AM_v1 now) ++ ", stale-while-revalidate=300")
    else some noStoreHeader
  else some noStoreHeader

/-- Cache-Control decision of the handler of the second module of
api/api_fuel-prices.js (stale window 60, day-clamped seconds). -/
def cacheControlB (force ok : Bool) (now : Int) : Option String :=
  if ok then
    if !force then
      some ("s-maxage=" ++ toString (getSecondsUntil7AM_v2 now) ++ ", stale-while-revalidate=60")
    else some noStoreHeader
  else some noStoreHeader

/-- Cache-Control of the api_fuel-prices.js handler: one constant header
set before the try block and never replaced, whatever the query flags and
whether the pipeline fails. -/
def cacheControlFixedVariant (_force _ok : Bool) : Option String :=
  some "s-maxage=3600, stale-while-revalidate"

/-- Cache-Control of the mnt_fuel-prices.js handler, which sets none. -/
def cacheControlMnt (_force _ok : Bool) : Option String := none

/-- Modelled from the spec wording: the earliest instant strictly after
now whose local time of day is 07:00:00.000. -/
def specNext7 (now : Int) : Int := now + (86400000 - (now - 25200000).fmod 86400000)

/-- Modelled from the spec wording: the whole seconds remaining from now
until the next 07:00 local time. -/
def specSecondsUntilNext7 (now : Int) : Int := (specNext7 now - now).fdiv 1000

/-- Concrete row whose product name contains the substrings of two
categories; the chain classifies it by the first. -/
def c10row : Row :=
  ⟨Cell.cstr "GUARULHOS", Cell.cnull, Cell.cstr "GASOLINA COMUM DIESEL",
   Cell.cnum (JNum.fin 7), Cell.cdate 0, Cell.cdate 0⟩

/-- Concrete GUARULHOS row named ETANOL DIESEL: its name contains DIESEL
and no S10, yet the chain classifies it as ethanol. -/
def c2row : Row :=
  ⟨Cell.cstr "GUARULHOS", Cell.cnull, Cell.cstr "ETANOL DIESEL",
   Cell.cnum (JNum.fin 5), Cell.cdate 1714867200000, Cell.cdate 1715126400000⟩

/-- Concrete row named DIESEL. -/
def c2rowDiesel : Row :=
  ⟨Cell.cstr "GUARULHOS", Cell.cnull, Cell.cstr "DIESEL",
   Cell.cnum (JNum.fin 6), Cell.cdate 0, Cell.cdate 0⟩

/-- Concrete row named DIESEL S10. -/
def c2rowS10 : Row :=
  ⟨Cell.cstr "GUARULHOS", Cell.cnull, Cell.cstr "DIESEL S10",
   Cell.cnum (JNum.fin 6), Cell.cdate 0, Cell.cdate 0⟩

/-- Concrete GUARULHOS row with category GNV and an empty-string price
cell: the isNaN guard passes (the empty string coerces to zero) but
parseFloat yields NaN. -/
def c5row : Row :=
  ⟨Cell.cstr "GUARULHOS", Cell.cnull, Cell.cstr "GNV", Cell.cstr "",
   Cell.cdate 1714867200000, Cell.cdate 1715126400000⟩

/-- Concrete GNV row with a finite numeric price. -/
def c5rowGood : Row :=
  ⟨Cell.cstr "GUARULHOS", Cell.cnull, Cell.cstr "GNV",
   Cell.cnum (JNum.fin 6), Cell.cdate 0, Cell.cdate 0⟩

/-- First GNV row of the duplicate pair, with a valid numeric price. -/
def c7row1 : Row :=
  ⟨Cell.cstr "GUARULHOS", Cell.cnull, Cell.cstr "GNV", Cell.cnum (JNum.fin 6),
   Cell.cdate 1714867200000, Cell.cdate 1715126400000⟩

/-- Second GNV row of the duplicate pair, with an unparsable price. -/
def c7row2 : Row :=
  ⟨Cell.cstr "GUARULHOS", Cell.cnull, Cell.cstr "GNV", Cell.cstr "abc",
   Cell.cdate 1714867200000, Cell.cdate 1715126400000⟩

/-- The result of the duplicate-pair run. -/
def c7out : CoreResult := ⟨⟨none, none, none, none⟩, "2024-05-05", "2024-05-08"⟩

/-- Earlier-period GUARULHOS row from the specification example. -/
def c1rowOld : Row :=
  ⟨Cell.cstr "GUARULHOS", Cell.cnull, Cell.cstr "GASOLINA COMUM", Cell.cnum (JNum.fin 6),
   Cell.cdate 1714262400000, Cell.cdate 1714521600000⟩

/-- Latest-period GUARULHOS row from the specification example. -/
def c1rowNew : Row :=
  ⟨Cell.cstr "GUARULHOS", Cell.cnull, Cell.cstr "ETANOL", Cell.cnum (JNum.fin 4),
   Cell.cdate 1714867200000, Cell.cdate 1715126400000⟩

/-- Index page holding a 2023-2024 link before a 2024-2025 link. -/
def c4html : String :=
  "<p><a href=\"https://www.gov.br/anp/shlp/semanal/semanal-municipio-2023-2024.xlsx\">a</a> <a href=\"https://www.gov.br/anp/shlp/semanal/semanal-municipio-2024-2025.xlsx\">b</a></p>"

/-! Helper lemmas: field access, classification, folds. -/

theorem getField_setField_same (c : Category) (v : Option JNum) (p : Prices) :
    getField c (setField c v p) = v := by
  cases c <;> rfl

theorem getField_setField_of_ne (c c2 : Category) (v : Option JNum) (p : Prices)
    (h : c ≠ c2) : getField c2 (setField c v p) = getField c2 p := by
  cases c <;> cases c2 <;> first | rfl | exact absurd rfl h

theorem applyRowPrices_of_none (p : Prices) (r : Row) (h : classifyCat r = none) :
    applyRowPrices p r = p := by
  unfold applyRowPrices
  unfold classifyCat at h
  split_ifs at h ⊢
  simp_all

theorem applyRowPrices_of_some (p : Prices) (r : Row) (c : Category)
    (h : classifyCat r = some c) :
    applyRowPrices p r = setField c (parsePreco r.precoMedioRevenda) p := by
  unfold applyRowPrices
  unfold classifyCat at h
  split_ifs at h ⊢ <;> simp_all <;> (subst h; rfl)

theorem getField_applyRow_of_ne (p : Prices) (r : Row) (c : Category)
    (h : classifyCat r ≠ some c) :
    getField c (applyRowPrices p r) = getField c p := by
  cases hc : classifyCat r with
  | none => rw [applyRowPrices_of_none p r hc]
  | some c2 =>
    rw [applyRowPrices_of_some p r c2 hc]
    exact getField_setField_of_ne c2 c _ p (by intro he; exact h (he ▸ hc))

theorem getField_applyRow_of_eq (p : Prices) (r : Row) (c : Category)
    (h : classifyCat r = some c) :
    getField c (applyRowPrices p r) = parsePreco r.precoMedioRevenda := by
  rw [applyRowPrices_of_some p r c h, getField_setField_same]

theorem pricesFold_getField (c : Category) (l : List Row) (p : Prices) :
    getField c (l.foldl applyRowPrices p) =
      ((l.filter fun r => decide (classifyCat r = some c)).getLast?).elim
        (getField c p) (fun r => parsePreco r.precoMedioRevenda) := by
  induction l generalizing p with
  | nil => rfl
  | cons x xs ih =>
    rw [List.foldl_cons, ih]
    by_cases hx : classifyCat x = some c
    · rw [List.filter_cons_of_pos (by simpa using hx)]
      cases hlast : (xs.filter fun r => decide (classifyCat r = some c)) with
      | nil => simp [getField_applyRow_of_eq p x c hx]
      | cons y ys =>
        cases hg : (y :: ys).getLast? with
        | none => exact absurd hg (by simp)
        | some r => simp [hg]
    · rw [List.filter_cons_of_neg (by simpa using hx)]
      cases hlast : (xs.filter fun r => decide (classifyCat r = some c)).getLast? with
      | none => simp [getField_applyRow_of_ne p x c hx]
      | some r => simp

theorem classifyCat_gasolina_iff (r : Row) :
    classifyCat r = some Category.gasolinaComum ↔
      strHasSub (produtoUpper r) "GASOLINA COMUM" = true := by
  unfold classifyCat
  split_ifs <;> simp_all

theorem classifyCat_etanol_iff (r : Row) :
    classifyCat r = some Category.etanol ↔
      (strHasSub (produtoUpper r) "ETANOL" = true ∧
       strHasSub (produtoUpper r) "GASOLINA COMUM" = false) := by
  unfold classifyCat
  split_ifs <;> simp_all

theorem classifyCat_diesel_iff (r : Row) :
    classifyCat r = some Category.diesel ↔
      (strHasSub (produtoUpper r) "DIESEL" = true ∧
       strHasSub (produtoUpper r) "S10" = false ∧
       strHasSub (produtoUpper r) "GASOLINA COMUM" = false ∧
       strHasSub (produtoUpper r) "ETANOL" = false) := by
  unfold classifyCat
  split_ifs <;> simp_all

theorem classifyCat_gnv_iff (r : Row) :
    classifyCat r = some Category.gnv ↔
      (strHasSub (produtoUpper r) "GNV" = true ∧
       strHasSub (produtoUpper r) "GASOLINA COMUM" = false ∧
       strHasSub (produtoUpper r) "ETANOL" = false ∧
       (strHasSub (produtoUpper r) "DIESEL" && !strHasSub (produtoUpper r) "S10") = false) := by
  unfold classifyCat
  split_ifs <;> simp_all


/-- C10: every row updates at most one price field, the one selected by
the first matching branch of the fixed priority order GASOLINA COMUM,
ETANOL, DIESEL-without-S10, GNV; every other field is untouched, and a
name matching several categories is classified only as the earliest. -/
theorem c10_priority_classification (p : Prices) (r : Row) :
    (∀ c : Category, classifyCat r ≠ some c →
       getField c (applyRowPrices p r) = getField c p) ∧
    (∀ c : Category, classifyCat r = some c →
       getField c (applyRowPrices p r) = parsePreco r.precoMedioRevenda) ∧
    (classifyCat r = some Category.gasolinaComum ↔
       strHasSub (produtoUpper r) "GASOLINA COMUM" = true) ∧
    (classifyCat r = some Category.etanol ↔
       (strHasSub (produtoUpper r) "ETANOL" = true ∧
        strHasSub (produtoUpper r) "GASOLINA COMUM" = false)) ∧
    (classifyCat r = some Category.diesel ↔
       (strHasSub (produtoUpper r) "DIESEL" = true ∧
        strHasSub (produtoUpper r) "S10" = false ∧
        strHasSub (produtoUpper r) "GASOLINA COMUM" = false ∧
        strHasSub (produtoUpper r) "ETANOL" = false)) ∧
    (classifyCat r = some Category.gnv ↔
       (strHasSub (produtoUpper r) "GNV" = true ∧
        strHasSub (produtoUpper r) "GASOLINA COMUM" = false ∧
        strHasSub (produtoUpper r) "ETANOL" = false ∧
        (strHasSub (produtoUpper r) "DIESEL" && !strHasSub (produtoUpper r) "S10") = false)) := by
  refine ⟨?_, ?_, classifyCat_gasolina_iff r, classifyCat_etanol_iff r,
    classifyCat_diesel_iff r, classifyCat_gnv_iff r⟩
  · intro c h
    exact getField_applyRow_of_ne p r c h
  · intro c h
    exact getField_applyRow_of_eq p r c h

/-- Witness for C10: a name holding both GASOLINA COMUM and DIESEL is
classified as gasoline and leaves the diesel field untouched. -/
theorem c10_witness :
    classifyCat c10row = some Category.gasolinaComum ∧
    getField Category.diesel (applyRowPrices initPrices c10row) =
      getField Category.diesel initPrices :=
  ⟨by decide, (c10_priority_classification initPrices c10row).1 Category.diesel (by decide)⟩


/-- Counterexample to C2 as stated: this latest-subset row's uppercased
name contains DIESEL and does not contain S10, but it does not populate
the diesel field (the earlier ETANOL branch consumes it), refuting the
if-and-only-if. -/
theorem c2_counterexample :
    strHasSub (produtoUpper c2row) "DIESEL" = true ∧
    strHasSub (produtoUpper c2row) "S10" = false ∧
    (processRows [c2row]).map (fun o => o.data.diesel) = Except.ok none ∧
    (processRows [c2row]).map (fun o => o.data.etanol) =
      Except.ok (some (JNum.fin 5)) := by decide



/-- C2 (amended): a row populates the diesel field exactly when its
uppercased name contains DIESEL, does not contain S10, and is not taken
by the earlier GASOLINA COMUM or ETANOL branches; in particular a row
named DIESEL S10 never populates it, a row named DIESEL does, and the
populated value is the parsed price of that row. -/
theorem c2_diesel_exclusion (r : Row) :
    (classifyCat r = some Category.diesel ↔
      (strHasSub (produtoUpper r) "DIESEL" = true ∧
       strHasSub (produtoUpper r) "S10" = false ∧
       strHasSub (produtoUpper r) "GASOLINA COMUM" = false ∧
       strHasSub (produtoUpper r) "ETANOL" = false)) ∧
    (produtoUpper r = "DIESEL S10" → classifyCat r ≠ some Category.diesel) ∧
    (produtoUpper r = "DIESEL" → classifyCat r = some Category.diesel) ∧
    (∀ p : Prices, classifyCat r = some Category.diesel →
       (applyRowPrices p r).diesel = parsePreco r.precoMedioRevenda) := by
  refine ⟨classifyCat_diesel_iff r, ?_, ?_, ?_⟩
  · intro h hc
    have hx := (classifyCat_diesel_iff r).mp hc
    rw [h] at hx
    exact absurd hx.2.1 (by decide)
  · intro h
    rw [classifyCat_diesel_iff r, h]
    decide
  · intro p hc
    rw [applyRowPrices_of_some p r Category.diesel hc]
    rfl

/-- Witness for C2: the DIESEL row is classified diesel, the DIESEL S10
row is not. -/
theorem c2_witness :
    classifyCat c2rowDiesel = some Category.diesel ∧
    classifyCat c2rowS10 ≠ some Category.diesel :=
  ⟨(c2_diesel_exclusion c2rowDiesel).2.2.1 (by decide),
   (c2_diesel_exclusion c2rowS10).2.1 (by decide)⟩


/-- Counterexample to C5 as stated: the empty-string price cell does not
parse as a finite number, yet the output field is NaN, not null. -/
theorem c5_counterexample :
    c5row.precoMedioRevenda = Cell.cstr "" ∧
    parseFloatStr "" = JNum.nan ∧
    (processRows [c5row]).map (fun o => o.data.gnv) =
      Except.ok (some JNum.nan) := by decide

/-- C5 (amended): for a classified row the field is null exactly when the
price cell is null or its Number coercion is NaN; otherwise the field is
parseFloat of the cell, which equals the cell's own value for every
numeric cell, and equals the parsed prefix for string cells (possibly NaN
for strings such as the empty string whose coercion is a number but whose
parseFloat fails, or infinite for Infinity strings). -/
theorem c5_price_parsing (p : Prices) (r : Row) (c : Category)
    (h : classifyCat r = some c) :
    getField c (applyRowPrices p r) = parsePreco r.precoMedioRevenda ∧
    (parsePreco r.precoMedioRevenda = none ↔
      (r.precoMedioRevenda = Cell.cnull ∨
       jsToNumber r.precoMedioRevenda = JNum.nan)) ∧
    (∀ q : Rat, r.precoMedioRevenda = Cell.cnum (JNum.fin q) →
       parsePreco r.precoMedioRevenda = some (JNum.fin q)) ∧
    (∀ s : String, r.precoMedioRevenda = Cell.cstr s → strToNumber s ≠ JNum.nan →
       parsePreco r.precoMedioRevenda = some (parseFloatStr s)) := by
  refine ⟨getField_applyRow_of_eq p r c h, ?_, ?_, ?_⟩
  · unfold parsePreco
    split_ifs with h1 h2 <;> simp_all
  · intro q hq
    unfold parsePreco
    rw [hq]
    simp [jsToNumber, jsParseFloat]
  · intro s hs hnan
    unfold parsePreco
    rw [hs]
    simp [jsToNumber, jsParseFloat, hnan]


/-- Witness for C5: a finite numeric price cell lands in its field. -/
theorem c5_witness :
    getField Category.gnv (applyRowPrices initPrices c5rowGood) = some (JNum.fin 6) := by
  have h := c5_price_parsing initPrices c5rowGood Category.gnv (by decide)
  rw [h.1]
  exact h.2.2.1 6 rfl

/-- C7: inside the latest-period subset, the output field of a category
is the parsed price of the last row of that subset classified into the
category, whatever earlier rows of the same category held. -/
theorem c7_last_write_wins (rows : List Row) (r0 : Row) (rest : List Row)
    (out : CoreResult) (c : Category) (r : Row)
    (hf : rows.filter rowMatchesGuarulhos = r0 :: rest)
    (hok : processRows rows = Except.ok out)
    (hlast : ((latestRows (r0 :: rest) (maxFinal r0 rest)).filter
        (fun x => decide (classifyCat x = some c))).getLast? = some r) :
    getField c out.data = parsePreco r.precoMedioRevenda := by
  simp only [processRows, hf] at hok
  split at hok
  · exact absurd hok (by simp)
  · split at hok
    · exact absurd hok (by simp)
    · split at hok
      · exact absurd hok (by simp)
      · rw [Except.ok.injEq] at hok
        subst hok
        show getField c (pricesOf (latestRows (r0 :: rest) (maxFinal r0 rest))) = _
        unfold pricesOf
        rw [pricesFold_getField, hlast]
        rfl


/-- Witness for C7: the second duplicate GNV row, whose price does not
parse, overwrites the first one's valid price with null. -/
theorem c7_witness :
    processRows [c7row1, c7row2] = Except.ok c7out ∧
    getField Category.gnv c7out.data = none := by
  have h := c7_last_write_wins [c7row1, c7row2] c7row1 [c7row2] c7out Category.gnv c7row2
    (by decide) (by decide) (by decide)
  exact ⟨by decide, h.trans (by decide)⟩

/-- C3: the pipeline fails with the no-data error exactly when no row's
locality matches GUARULHOS after the case-insensitive uppercased
comparison; when at least one row matches, that error never arises. -/
theorem c3_no_data_error (rows : List Row) :
    processRows rows = Except.error "Nenhum dado encontrado para Guarulhos" ↔
      ∀ r ∈ rows, rowMatchesGuarulhos r = false := by
  cases hf : rows.filter rowMatchesGuarulhos with
  | nil =>
    constructor
    · intro _ r hr
      by_contra hb
      rw [Bool.not_eq_false] at hb
      have hmem : r ∈ rows.filter rowMatchesGuarulhos := List.mem_filter.mpr ⟨hr, hb⟩
      rw [hf] at hmem
      exact absurd hmem (List.not_mem_nil r)
    · intro _
      simp [processRows, hf]
  | cons r0 rest =>
    constructor
    · intro h
      exfalso
      simp only [processRows, hf] at h
      split at h
      · exact absurd h (by decide)
      · split at h
        · exact absurd h (by decide)
        · split at h
          · exact absurd h (by decide)
          · exact absurd h (by simp)
    · intro hall
      exfalso
      have hmem : r0 ∈ rows.filter rowMatchesGuarulhos := by
        rw [hf]
        exact List.mem_cons_self r0 rest
      have h0 := List.mem_filter.mp hmem
      have hbad := hall r0 h0.1
      rw [hbad] at h0
      exact absurd h0.2 (by decide)

/-- Witness for C3: an empty row set trips the no-data error. -/
theorem c3_witness :
    processRows ([] : List Row) = Except.error "Nenhum dado encontrado para Guarulhos" :=
  (c3_no_data_error []).mpr (by intro r hr; cases hr)

/-- C8: the extraction is deterministic in everything but the updatedAt
clock: two runs over the same rows agree on success, prices, periodStart
and periodEnd whatever the two clock readings are. -/
theorem c8_determinism (rows : List Row) (n1 n2 : Int) :
    (fetchPipeline n1 rows).map (fun p => (p.success, p.data, p.periodStart, p.periodEnd)) =
      (fetchPipeline n2 rows).map (fun p => (p.success, p.data, p.periodStart, p.periodEnd)) := by
  unfold fetchPipeline
  cases h : processRows rows with
  | error e =>
    show (Except.error e : Except String (Bool × Prices × String × String)) = Except.error e
    rfl
  | ok c =>
    show Except.ok (true, c.data, c.periodStart, c.periodEnd) =
      Except.ok (true, c.data, c.periodStart, c.periodEnd)
    rfl

theorem qSub_intCast (a b : Int) :
    qSub ((a : Int) : Rat) ((b : Int) : Rat) = ((a - b : Int) : Rat) := by
  unfold qSub
  simp [Rat.divInt_one]

theorem qFloor_intCast (m : Int) : qFloor ((m : Int) : Rat) = m := by
  unfold qFloor
  simp

/-- C6: on an integral day-count serial within the representable Date
range, excelDateToJS yields exactly the serial minus 25569 days, scaled
to milliseconds; Date cells pass through as their own timestamp and
string cells go to native date parsing. -/
theorem c6_excel_serial (n : Int)
    (h : ((n - 25569) * 86400000).natAbs ≤ 8640000000000000) :
    excelDateToJS (Cell.cnum (JNum.fin ((n : Int) : Rat))) =
      JNum.fin ((((n : Int) : Rat) - 25569) * 86400000) ∧
    (∀ ms : Int, excelDateToJS (Cell.cdate ms) = JNum.fin ((ms : Int) : Rat)) ∧
    (∀ s : String, excelDateToJS (Cell.cstr s) = jsDateParse s) := by
  refine ⟨?_, fun ms => rfl, fun s => rfl⟩
  show dateClip (qFloor (qSub ((n : Int) : Rat) 25569) * 86400000) = _
  have h25 : (25569 : Rat) = ((25569 : Int) : Rat) := by norm_num
  rw [h25, qSub_intCast, qFloor_intCast]
  unfold dateClip
  rw [if_pos h]
  push_cast
  ring_nf

/-- Witness for C6: serial 45000 lands on the stated timestamp. -/
theorem c6_witness :
    (((45000 - 25569) * 86400000 : Int)).natAbs ≤ 8640000000000000 ∧
    excelDateToJS (Cell.cnum (JNum.fin ((45000 : Int) : Rat))) =
      JNum.fin ((((45000 : Int) : Rat) - 25569) * 86400000) :=
  ⟨by norm_num, (c6_excel_serial 45000 (by norm_num)).1⟩

theorem jeqB_fin_right (v : JNum) (M : Rat) :
    jeqB v (JNum.fin M) = true ↔ v = JNum.fin M := by
  cases v <;> simp [jeqB]

theorem mem_latestRows (g : List Row) (M : Rat) (r : Row) :
    r ∈ latestRows g (JNum.fin M) ↔
      (r ∈ g ∧ excelDateToJS r.dataFinal = JNum.fin M) := by
  unfold latestRows
  rw [List.mem_filter, jeqB_fin_right]

theorem stepMax_fin (i x : Rat) :
    stepMax (JNum.fin i) (JNum.fin x) = JNum.fin (max i x) := by
  unfold stepMax
  simp only [jgtB, jltB]
  by_cases hc : i < x
  · simp [hc, max_eq_right hc.le]
  · simp [hc, max_eq_left (not_lt.mp hc)]

theorem maxFold_spec (l : List JNum) : ∀ i : Rat, (∀ v ∈ l, v.isFin = true) →
    ∃ M : Rat,
      l.foldl stepMax (JNum.fin i) = JNum.fin M ∧
      (JNum.fin M = JNum.fin i ∨ JNum.fin M ∈ l) ∧
      i ≤ M ∧
      (∀ x : Rat, JNum.fin x ∈ l → x ≤ M) := by
  induction l with
  | nil =>
    intro i _
    exact ⟨i, rfl, Or.inl rfl, le_refl i, by intro x hx; cases hx⟩
  | cons d t ih =>
    intro i hall
    have hd : d.isFin = true := hall d (List.mem_cons_self d t)
    obtain ⟨x, rfl⟩ : ∃ x, d = JNum.fin x := by
      cases d with
      | fin q => exact ⟨q, rfl⟩
      | nan => simp [JNum.isFin] at hd
      | inf p => simp [JNum.isFin] at hd
    rw [List.foldl_cons, stepMax_fin]
    obtain ⟨M, hfold, hmem, hle, hub⟩ :=
      ih (max i x) (fun v hv => hall v (List.mem_cons_of_mem _ hv))
    refine ⟨M, hfold, ?_, le_trans (le_max_left i x) hle, ?_⟩
    · rcases hmem with h | h
      · have hMx : M = max i x := by injection h
        rcases max_choice i x with hm | hm
        · exact Or.inl (by rw [hMx, hm])
        · exact Or.inr (by rw [hMx, hm]; exact List.mem_cons_self _ t)
      · exact Or.inr (List.mem_cons_of_mem _ h)
    · intro y hy
      rcases List.mem_cons.mp hy with h | h
      · have : y = x := by injection h
        rw [this]
        exact le_trans (le_max_right i x) hle
      · exact hub y h

theorem stepMin_fin (i x : Rat) :
    stepMin (some (JNum.fin i)) (JNum.fin x) = some (JNum.fin (min i x)) := by
  unfold stepMin
  simp only [jltB]
  by_cases hc : x < i
  · simp [hc, min_eq_right hc.le]
  · simp [hc, min_eq_left (not_lt.mp hc)]

theorem minFold_spec (l : List JNum) : ∀ i : Rat, (∀ v ∈ l, v.isFin = true) →
    ∃ M : Rat,
      l.foldl stepMin (some (JNum.fin i)) = some (JNum.fin M) ∧
      (JNum.fin M = JNum.fin i ∨ JNum.fin M ∈ l) ∧
      M ≤ i ∧
      (∀ x : Rat, JNum.fin x ∈ l → M ≤ x) := by
  induction l with
  | nil =>
    intro i _
    exact ⟨i, rfl, Or.inl rfl, le_refl i, by intro x hx; cases hx⟩
  | cons d t ih =>
    intro i hall
    have hd : d.isFin = true := hall d (List.mem_cons_self d t)
    obtain ⟨x, rfl⟩ : ∃ x, d = JNum.fin x := by
      cases d with
      | fin q => exact ⟨q, rfl⟩
      | nan => simp [JNum.isFin] at hd
      | inf p => simp [JNum.isFin] at hd
    rw [List.foldl_cons, stepMin_fin]
    obtain ⟨M, hfold, hmem, hle, hlb⟩ :=
      ih (min i x) (fun v hv => hall v (List.mem_cons_of_mem _ hv))
    refine ⟨M, hfold, ?_, le_trans hle (min_le_left i x), ?_⟩
    · rcases hmem with h | h
      · have hMx : M = min i x := by injection h
        rcases min_choice i x with hm | hm
        · exact Or.inl (by rw [hMx, hm])
        · exact Or.inr (by rw [hMx, hm]; exact List.mem_cons_self _ t)
      · exact Or.inr (List.mem_cons_of_mem _ h)
    · intro y hy
      rcases List.mem_cons.mp hy with h | h
      · have : y = x := by injection h
        rw [this]
        exact le_trans hle (min_le_right i x)
      · exact hlb y h

theorem isFin_exists (v : JNum) (h : v.isFin = true) : ∃ x : Rat, v = JNum.fin x := by
  cases v with
  | fin q => exact ⟨q, rfl⟩
  | nan => simp [JNum.isFin] at h
  | inf p => simp [JNum.isFin] at h

/-- C1: with a nonempty GUARULHOS row set whose period dates are all
valid, the extraction succeeds; periodEnd is the formatted maximum
end-date timestamp M over the matching rows, periodStart is the formatted
minimum start-date timestamp m among exactly the rows whose end-date
timestamp equals M, and the price record is computed from that latest
subset only, so earlier-period rows contribute nothing. -/
theorem c1_latest_period (rows : List Row)
    (hne : rows.filter rowMatchesGuarulhos ≠ [])
    (hfin : ∀ r ∈ rows.filter rowMatchesGuarulhos,
      (excelDateToJS r.dataFinal).isFin = true ∧ (excelDateToJS r.dataInicial).isFin = true) :
    ∃ (out : CoreResult) (M m : Rat),
      processRows rows = Except.ok out ∧
      (∃ r ∈ rows.filter rowMatchesGuarulhos, excelDateToJS r.dataFinal = JNum.fin M) ∧
      (∀ r ∈ rows.filter rowMatchesGuarulhos, ∀ x : Rat,
        excelDateToJS r.dataFinal = JNum.fin x → x ≤ M) ∧
      out.periodEnd = isoDatePart M ∧
      (∃ r ∈ rows.filter rowMatchesGuarulhos,
        excelDateToJS r.dataFinal = JNum.fin M ∧ excelDateToJS r.dataInicial = JNum.fin m) ∧
      (∀ r ∈ rows.filter rowMatchesGuarulhos, excelDateToJS r.dataFinal = JNum.fin M →
        ∀ x : Rat, excelDateToJS r.dataInicial = JNum.fin x → m ≤ x) ∧
      out.periodStart = isoDatePart m ∧
      out.data = pricesOf (latestRows (rows.filter rowMatchesGuarulhos) (JNum.fin M)) := by
  cases hf : rows.filter rowMatchesGuarulhos with
  | nil => exact absurd hf hne
  | cons r0 rest =>
    rw [hf] at hfin
    obtain ⟨i, hi⟩ := isFin_exists _ (hfin r0 (List.mem_cons_self r0 rest)).1
    have hmapfin : ∀ v ∈ rest.map (fun r => excelDateToJS r.dataFinal), v.isFin = true := by
      intro v hv
      obtain ⟨r, hr, rfl⟩ := List.mem_map.mp hv
      exact (hfin r (List.mem_cons_of_mem r0 hr)).1
    obtain ⟨M, hfoldM, hmemM, hiM, hubM⟩ := maxFold_spec _ i hmapfin
    have hmax : maxFinal r0 rest = JNum.fin M := by
      unfold maxFinal
      rw [hi]
      rw [show rest.foldl (fun m r => stepMax m (excelDateToJS r.dataFinal)) (JNum.fin i) =
            (rest.map fun r => excelDateToJS r.dataFinal).foldl stepMax (JNum.fin i) from
          (List.foldl_map _ _ _ _).symm]
      exact hfoldM
    have hmaxMem : ∃ r ∈ r0 :: rest, excelDateToJS r.dataFinal = JNum.fin M := by
      rcases hmemM with h | h
      · exact ⟨r0, List.mem_cons_self r0 rest, by rw [hi]; exact h.symm⟩
      · obtain ⟨r, hr, hfr⟩ := List.mem_map.mp h
        exact ⟨r, List.mem_cons_of_mem r0 hr, hfr⟩
    have hubAll : ∀ r ∈ r0 :: rest, ∀ x : Rat,
        excelDateToJS r.dataFinal = JNum.fin x → x ≤ M := by
      intro r hr x hx
      rcases List.mem_cons.mp hr with h | h
      · subst h
        rw [hi] at hx
        have hx2 : i = x := by injection hx
        rw [← hx2]
        exact hiM
      · refine hubM x ?_
        rw [← hx]
        exact List.mem_map_of_mem _ h
    obtain ⟨rM, hrM, hfrM⟩ := hmaxMem
    have hlatestMem : rM ∈ latestRows (r0 :: rest) (JNum.fin M) :=
      (mem_latestRows _ _ _).mpr ⟨hrM, hfrM⟩
    cases hl : latestRows (r0 :: rest) (JNum.fin M) with
    | nil =>
      rw [hl] at hlatestMem
      cases hlatestMem
    | cons l0 lrest =>
      have hlat : ∀ r ∈ l0 :: lrest,
          r ∈ r0 :: rest ∧ excelDateToJS r.dataFinal = JNum.fin M := by
        intro r hr
        exact (mem_latestRows _ _ _).mp (by rw [hl]; exact hr)
      obtain ⟨j, hj⟩ := isFin_exists _ (hfin l0 (hlat l0 (List.mem_cons_self _ _)).1).2
      have hmapfin2 : ∀ v ∈ lrest.map (fun r => excelDateToJS r.dataInicial),
          v.isFin = true := by
        intro v hv
        obtain ⟨r, hr, rfl⟩ := List.mem_map.mp hv
        exact (hfin r (hlat r (List.mem_cons_of_mem _ hr)).1).2
      obtain ⟨m, hfoldm, hmemm, hjm, hlbm⟩ := minFold_spec _ j hmapfin2
      have hmin : minInicial (l0 :: lrest) = some (JNum.fin m) := by
        unfold minInicial
        rw [List.foldl_cons]
        rw [show stepMin none (excelDateToJS l0.dataInicial) = some (JNum.fin j) by
          rw [hj]; rfl]
        rw [show lrest.foldl (fun acc r => stepMin acc (excelDateToJS r.dataInicial))
              (some (JNum.fin j)) =
            (lrest.map fun r => excelDateToJS r.dataInicial).foldl stepMin (some (JNum.fin j)) from
          (List.foldl_map _ _ _ _).symm]
        exact hfoldm
      refine ⟨⟨pricesOf (l0 :: lrest), isoDatePart m, isoDatePart M⟩, M, m,
        ?_, ⟨rM, hrM, hfrM⟩, hubAll, rfl, ?_, ?_, rfl, ?_⟩
      · simp only [processRows, hf]
        rw [hmax, hl, hmin]
        rfl
      · rcases hmemm with h | h
        · refine ⟨l0, (hlat l0 (List.mem_cons_self _ _)).1,
            (hlat l0 (List.mem_cons_self _ _)).2, ?_⟩
          rw [hj]
          exact h.symm
        · obtain ⟨r, hr, hgr⟩ := List.mem_map.mp h
          exact ⟨r, (hlat r (List.mem_cons_of_mem _ hr)).1,
            (hlat r (List.mem_cons_of_mem _ hr)).2, hgr⟩
      · intro r hr hfr x hx
        have hrl : r ∈ l0 :: lrest := by
          rw [← hl]
          exact (mem_latestRows _ _ _).mpr ⟨hr, hfr⟩
        rcases List.mem_cons.mp hrl with h | h
        · subst h
          rw [hj] at hx
          have hx2 : j = x := by injection hx
          rw [← hx2]
          exact hjm
        · refine hlbm x ?_
          rw [← hx]
          exact List.mem_map_of_mem _ h
      · rw [hl]

/-- Witness for C1: on the example pair (end 2024-05-01, start 2024-04-28)
and (end 2024-05-08, start 2024-05-05), the result reports the later
period and ignores the earlier row. -/
theorem c1_witness :
    ([c1rowOld, c1rowNew].filter rowMatchesGuarulhos ≠ []) ∧
    (processRows [c1rowOld, c1rowNew]).map (fun o => (o.periodStart, o.periodEnd)) =
      Except.ok ("2024-05-05", "2024-05-08") := by
  have h := c1_latest_period [c1rowOld, c1rowNew] (by decide) (by decide)
  exact ⟨by decide, by decide⟩

theorem insertionSort_head_max (ms : List Candidate) (m0 : Candidate) (rest : List Candidate)
    (h : List.insertionSort candGe ms = m0 :: rest) :
    m0 ∈ ms ∧ ∀ c ∈ ms, candGe m0 c := by
  have hs := List.sorted_insertionSort candGe ms
  have hp := List.perm_insertionSort candGe ms
  constructor
  · exact hp.mem_iff.mp (by rw [h]; exact List.mem_cons_self _ _)
  · intro c hc
    have hc2 : c ∈ m0 :: rest := by
      rw [← h]
      exact hp.symm.subset hc
    rcases List.mem_cons.mp hc2 with hrfl | hcr
    · subst hrfl
      exact Or.inr ⟨rfl, le_refl _⟩
    · rw [h] at hs
      exact List.rel_of_sorted_cons hs c hcr

/-- C4: discovery collects the href-anchored matches, falls back to the
loose pattern exactly when the first set is empty, errors when both are
empty, and otherwise returns a candidate of the used set whose year pair
dominates every candidate under the end-year-then-start-year order, a
characterization independent of document order. -/
theorem c4_url_discovery (html : String) :
    (findLatestExcelUrlPure html =
        Except.error "No municipality Excel files found on ANP page" ↔
      (hrefCandidates html = [] ∧ altCandidates html = [])) ∧
    (hrefCandidates html ≠ [] → usedCandidates html = hrefCandidates html) ∧
    (hrefCandidates html = [] → usedCandidates html = altCandidates html) ∧
    (usedCandidates html ≠ [] →
      ∃ c ∈ usedCandidates html,
        findLatestExcelUrlPure html = Except.ok (resolveUrl c.url) ∧
        ∀ c2 ∈ usedCandidates html, candGe c c2) := by
  refine ⟨?_, ?_, ?_, ?_⟩
  · unfold findLatestExcelUrlPure
    by_cases h : (usedCandidates html).isEmpty
    · rw [if_pos h]
      constructor
      · intro _
        unfold usedCandidates at h
        by_cases hA : (hrefCandidates html).isEmpty
        · rw [if_pos hA] at h
          exact ⟨List.isEmpty_iff.mp hA, List.isEmpty_iff.mp h⟩
        · rw [if_neg hA] at h
          exact absurd h hA
      · intro _
        rfl
    · rw [if_neg h]
      constructor
      · intro hx
        exact Except.noConfusion hx
      · rintro ⟨hA, hB⟩
        exact absurd (by unfold usedCandidates; simp [hA, hB]) h
  · intro hA
    unfold usedCandidates
    rw [if_neg (fun hcontra => hA (List.isEmpty_iff.mp hcontra))]
  · intro hA
    unfold usedCandidates
    rw [if_pos (List.isEmpty_iff.mpr hA)]
  · intro hne
    cases hsort : List.insertionSort candGe (usedCandidates html) with
    | nil =>
      exfalso
      have hp := List.perm_insertionSort candGe (usedCandidates html)
      rw [hsort] at hp
      exact hne (List.Perm.nil_eq hp).symm
    | cons m0 rest =>
      obtain ⟨hmem, hmax⟩ := insertionSort_head_max (usedCandidates html) m0 rest hsort
      refine ⟨m0, hmem, ?_, hmax⟩
      unfold findLatestExcelUrlPure
      rw [if_neg (fun hcontra => hne (List.isEmpty_iff.mp hcontra))]
      rw [hsort]
      rfl


set_option maxRecDepth 8000 in
/-- Witness for C4: the 2024-2025 file is selected although it appears
after the 2023-2024 file in the page. -/
theorem c4_witness :
    usedCandidates c4html ≠ [] ∧
    findLatestExcelUrlPure c4html =
      Except.ok "https://www.gov.br/anp/shlp/semanal/semanal-municipio-2024-2025.xlsx" := by
  obtain ⟨c, hmem, hok, hmax⟩ := (c4_url_discovery c4html).2.2.2 (by decide)
  exact ⟨by decide, by decide⟩

theorem target7_eq (now : Int) :
    (if 86400000 * (now.fdiv 86400000) + 25200000 ≤ now
      then 86400000 * (now.fdiv 86400000) + 25200000 + 86400000
      else 86400000 * (now.fdiv 86400000) + 25200000) = specNext7 now := by
  unfold specNext7
  have h1 := Int.fdiv_add_fmod now 86400000
  have h2 := Int.fmod_nonneg' now (by norm_num : (0 : Int) < 86400000)
  have h3 := Int.fmod_lt_of_pos now (by norm_num : (0 : Int) < 86400000)
  have h4 := Int.fdiv_add_fmod (now - 25200000) 86400000
  have h5 := Int.fmod_nonneg' (now - 25200000) (by norm_num : (0 : Int) < 86400000)
  have h6 := Int.fmod_lt_of_pos (now - 25200000) (by norm_num : (0 : Int) < 86400000)
  split_ifs with hc
  · omega
  · omega

theorem getSeconds_v1_spec (now : Int) :
    getSecondsUntil7AM_v1 now = max 60 (specSecondsUntilNext7 now) := by
  simp only [getSecondsUntil7AM_v1, specSecondsUntilNext7]
  rw [target7_eq now]

theorem getSeconds_v2_spec (now : Int) :
    getSecondsUntil7AM_v2 now = max 60 (min (specSecondsUntilNext7 now) 86400) := by
  simp only [getSecondsUntil7AM_v2, specSecondsUntilNext7]
  rw [target7_eq now]

theorem smaxage_ne_noStore (t : String) : "s-maxage=" ++ t ≠ noStoreHeader := by
  intro h
  have h2 := congrArg (fun s => s.data.head?) h
  simp [noStoreHeader, String.data_append] at h2

/-- Counterexample to C9 as stated: the api_fuel-prices.js handler keeps
its constant header on a forced-refresh request instead of a no-store
directive, with a max-age of 3600 unrelated to the 25200 seconds until
07:00 computed at midnight, and the mnt handler sets no Cache-Control
header at all. -/
theorem c9_counterexample :
    cacheControlFixedVariant true true = some "s-maxage=3600, stale-while-revalidate" ∧
    cacheControlFixedVariant true true ≠ some noStoreHeader ∧
    cacheControlMnt false true = none ∧
    getSecondsUntil7AM_v1 0 = 25200 ∧ (3600 : Int) ≠ 25200 := by
  exact ⟨rfl, by decide, rfl, by decide, by decide⟩

/-- C9 (amended): the three dynamic handlers answer with the no-store
directive exactly on forced refresh or failure and otherwise with an
s-maxage directive whose value is the seconds until the next 07:00 local
time clamped below by 60 (the second api module also clamps above by a
day); specNext7 is a 07:00 instant lying strictly after now and at most a
day away.  The remaining variants deviate from the claim: api_fuel-prices
always sends a constant header and mnt_fuel-prices sends none. -/
theorem c9_cache_control (force ok : Bool) (now : Int) :
    (cacheControlA force ok now = some noStoreHeader ↔ (force = true ∨ ok = false)) ∧
    (force = false → ok = true →
      cacheControlA force ok now =
        some ("s-maxage=" ++ toString (max 60 (specSecondsUntilNext7 now)) ++
          ", stale-while-revalidate=300")) ∧
    (cacheControlB force ok now = some noStoreHeader ↔ (force = true ∨ ok = false)) ∧
    (force = false → ok = true →
      cacheControlB force ok now =
        some ("s-maxage=" ++ toString (max 60 (min (specSecondsUntilNext7 now) 86400)) ++
          ", stale-while-revalidate=60")) ∧
    cacheControlFixedVariant force ok = some "s-maxage=3600, stale-while-revalidate" ∧
    cacheControlMnt force ok = none ∧
    now < specNext7 now ∧
    specNext7 now ≤ now + 86400000 ∧
    (specNext7 now - 25200000).fmod 86400000 = 0 := by
  have hne1 : ∀ t : String, ¬(some ("s-maxage=" ++ t) = some noStoreHeader) := by
    intro t h
    exact smaxage_ne_noStore t (by injection h)
  have h5 := Int.fmod_nonneg' (now - 25200000) (by norm_num : (0 : Int) < 86400000)
  have h6 := Int.fmod_lt_of_pos (now - 25200000) (by norm_num : (0 : Int) < 86400000)
  have h4 := Int.fdiv_add_fmod (now - 25200000) 86400000
  refine ⟨?_, ?_, ?_, ?_, rfl, rfl, ?_, ?_, ?_⟩
  · cases ok with
    | false => simp [cacheControlA]
    | true =>
      cases force with
      | true => simp [cacheControlA]
      | false =>
        simp only [cacheControlA, Bool.not_false, if_true, ite_true]
        exact ⟨fun h => absurd h (hne1 _), fun h => by rcases h with h | h <;> cases h⟩
  · intro hf hk
    subst hf
    subst hk
    simp only [cacheControlA, Bool.not_false, if_true, ite_true]
    rw [getSeconds_v1_spec]
  · cases ok with
    | false => simp [cacheControlB]
    | true =>
      cases force with
      | true => simp [cacheControlB]
      | false =>
        simp only [cacheControlB, Bool.not_false, if_true, ite_true]
        exact ⟨fun h => absurd h (hne1 _), fun h => by rcases h with h | h <;> cases h⟩
  · intro hf hk
    subst hf
    subst hk
    simp only [cacheControlB, Bool.not_false, if_true, ite_true]
    rw [getSeconds_v2_spec]
  · unfold specNext7
    omega
  · unfold specNext7
    omega
  · have hkey : specNext7 now - 25200000 =
        86400000 * ((now - 25200000).fdiv 86400000 + 1) := by
      unfold specNext7
      omega
    rw [hkey, Int.mul_fmod_right]

/-- Witness for C9: at now zero, a forced refresh gets the no-store
directive and a plain request gets the 25200-second max-age until 07:00. -/
theorem c9_witness :
    cacheControlA true true 0 = some noStoreHeader ∧
    cacheControlA false true 0 = some "s-maxage=25200, stale-while-revalidate=300" := by
  refine ⟨(c9_cache_control true true 0).1.mpr (Or.inl rfl), ?_⟩
  have h := (c9_cache_control false true 0).2.1 rfl rfl
  rw [h]
  decide
